import Mathlib

/-!
Shallow embedding of the resilience/aggregation core of the satoshi-forex
repository, together with theorems settling the frozen claims about it.

Modelling conventions, used throughout:
* JavaScript numbers are modelled as exact rationals; the source performs
  only field arithmetic on finite values in the paths under study, so the
  rational semantics coincides with the intended numeric behaviour.
* A JavaScript object with string keys is modelled as an association list
  in insertion order (`Obj`): property read is the first matching key
  (keys of a parsed object are unique), property write updates the value
  in place when the key exists and appends otherwise, exactly the
  enumeration-order semantics of `Object.entries` / `Object.keys`.
* Network requests and the filesystem are inputs of the embedded
  functions: a route handler takes the fetch outcome and the cache file
  content as arguments and returns the JSON response it would serialise
  (plus the cache file content after its writes).
-/

/-- Association-list model of a JavaScript object with string keys. -/
abbrev Obj (α : Type) : Type := List (String × α)

/-- Property read, `obj[k]`: the first entry with key `k`, if any. -/
def olookup {α : Type} (m : Obj α) (k : String) : Option α :=
  (m.find? (fun e => e.1 = k)).map (fun e => e.2)

/-- Property write, `obj[k] = v`: update in place when `k` is present,
append otherwise (the JavaScript insertion-order semantics). -/
def oinsert {α : Type} (m : Obj α) (k : String) (v : α) : Obj α :=
  if m.any (fun e => e.1 = k) then
    m.map (fun e => if e.1 = k then (k, v) else e)
  else
    m ++ [(k, v)]

/-- ASCII lower-casing of one character, as `String.prototype.toLowerCase`
acts on the ASCII currency codes used by the source. -/
def lowerChar (c : Char) : Char :=
  if 'A' ≤ c ∧ c ≤ 'Z' then Char.ofNat (c.toNat + 32) else c

/-- ASCII lower-casing of a string (`code.toLowerCase()` on ASCII input). -/
def lowerStr (s : String) : String := ⟨s.data.map lowerChar⟩

/-- ASCII upper-casing of one character, as `String.prototype.toUpperCase`
acts on the ASCII currency codes used by the source. -/
def upperChar (c : Char) : Char :=
  if 'a' ≤ c ∧ c ≤ 'z' then Char.ofNat (c.toNat - 32) else c

/-- ASCII upper-casing of a string (`code.toUpperCase()` on ASCII input). -/
def upperStr (s : String) : String := ⟨s.data.map upperChar⟩

/-! ## Unit converter (src/unnamed/part_001, currency conversion utilities) -/

/-- Constant `SATS_PER_BTC = 100000000` of the unit converter module. -/
def SATS_PER_BTC : ℚ := 100000000

/-- `satsToBtc(sats) = sats / SATS_PER_BTC`. -/
def satsToBtc (sats : ℚ) : ℚ := sats / SATS_PER_BTC

/-- `btcToSats(btc) = btc * SATS_PER_BTC`. -/
def btcToSats (btc : ℚ) : ℚ := btc * SATS_PER_BTC

/-- `fiatToSats(fiatAmount, fiatPerBtc)`: guarded, returns 0 when the
price is not positive, else `(fiatAmount / fiatPerBtc) * SATS_PER_BTC`. -/
def fiatToSats (fiatAmount fiatPerBtc : ℚ) : ℚ :=
  if fiatPerBtc ≤ 0 then 0 else (fiatAmount / fiatPerBtc) * SATS_PER_BTC

/-- `satsToFiat(sats, fiatPerBtc) = satsToBtc(sats) * fiatPerBtc`:
no guard on the price in the source. -/
def satsToFiat (sats fiatPerBtc : ℚ) : ℚ := satsToBtc sats * fiatPerBtc

/-- `fiatToBtc(fiatAmount, fiatPerBtc)`: guarded, returns 0 when the
price is not positive, else `fiatAmount / fiatPerBtc`. -/
def fiatToBtc (fiatAmount fiatPerBtc : ℚ) : ℚ :=
  if fiatPerBtc ≤ 0 then 0 else fiatAmount / fiatPerBtc

/-- `btcToFiat(btc, fiatPerBtc) = btc * fiatPerBtc`:
no guard on the price in the source. -/
def btcToFiat (btc fiatPerBtc : ℚ) : ℚ := btc * fiatPerBtc

/-- ECMA-402 IsWellFormedCurrencyCode: exactly three ASCII letters.
`Intl.NumberFormat` with `style: "currency"` throws a RangeError at
construction time for any other currency argument; a well-formed code is
accepted (and formatted with the code itself as symbol) even when it is
not an assigned ISO 4217 currency. -/
def isWellFormedCurrencyCode (s : String) : Bool :=
  s.data.length = 3 &&
    s.data.all (fun c => ('A' ≤ c && c ≤ 'Z') || ('a' ≤ c && c ≤ 'z'))

/-- Model of `new Intl.NumberFormat("en-US", \x7b style: "currency",
currency: cc, ... \x7d)`: returns the formatting function on success and
the RangeError the constructor throws on a malformed currency code. The
formatting function itself (`formatter.format`) is an argument `fmt` of
the model, since its exact locale output is irrelevant to the claims; on
a finite number it is total and does not throw. -/
def intlCurrencyFormatterNew (fmt : ℚ → String) (cc : String) :
    Except String (ℚ → String) :=
  if isWellFormedCurrencyCode cc then Except.ok fmt
  else Except.error "RangeError: invalid currency code"

/-- `formatFiat(amount, currencyCode)` of the unit converter module. The
source constructs the `Intl.NumberFormat` formatter OUTSIDE its
try/catch, so a constructor RangeError propagates out of `formatFiat`;
only `formatter.format(amount)` is inside the try, and that call is total
on finite numbers, so the catch branch returning the composite
`"<CODE> <number>"` fallback string is unreachable. `fmt` stands for the
locale number formatting primitive (see `intlCurrencyFormatterNew`). -/
def formatFiat (fmt : ℚ → String) (amount : ℚ) (currencyCode : String) :
    Except String String :=
  match intlCurrencyFormatterNew fmt (upperStr currencyCode) with
  | Except.error e => Except.error e
  | Except.ok f => Except.ok (f amount)

/-! ## CoinGecko route handler (src/src/app/api/coingecko/route.ts) -/

/-- Parsed body of the CoinGecko price response: the handler validates
only that the `bitcoin` key is present (`if (!data || !data.bitcoin)`),
so the body is modelled as an optional flat currency-to-price map. -/
structure CGResponse where
  bitcoin : Option (Obj ℚ)
deriving DecidableEq, Repr

/-- Content of the CoinGecko cache file `coingecko_btc_cache.json`. -/
structure CGCacheData where
  timestamp : ℕ
  data : CGResponse
deriving DecidableEq, Repr

/-- JSON response the CoinGecko route handler returns. -/
structure CGRouteResponse where
  status : ℕ
  source : Option String
  timestamp : Option ℕ
  data : Option CGResponse
  error : Option String
deriving DecidableEq, Repr

/-- Catch branch of the CoinGecko handler: read the cache file; serve it
with `source: "cache"` and its stored timestamp when it exists, else
rethrow into the outer catch which answers HTTP 500. -/
def coingeckoFallback (cache : Option CGCacheData) :
    CGRouteResponse × Option CGCacheData :=
  match cache with
  | some c =>
      ({ status := 200, source := some "cache", timestamp := some c.timestamp,
         data := some c.data, error := none }, cache)
  | none =>
      ({ status := 500, source := none, timestamp := none, data := none,
         error := some "Failed to fetch from CoinGecko API and no cache available" },
       cache)

/-- `GET` of the CoinGecko route. `fetchResult` is the outcome of the
upstream request (`Except.error` covers a network failure and a non-OK
status, both thrown in the source); a body without the `bitcoin` key is
thrown as well and lands in the same catch. On success the response is
cached (`writeToCache`) and served with `source: "api"`. Returns the
response and the cache file content afterwards. -/
def coingeckoGET (now : ℕ) (cache : Option CGCacheData)
    (fetchResult : Except String CGResponse) :
    CGRouteResponse × Option CGCacheData :=
  match fetchResult with
  | Except.error _ => coingeckoFallback cache
  | Except.ok d =>
    match d.bitcoin with
    | none => coingeckoFallback cache
    | some _ =>
        ({ status := 200, source := some "api", timestamp := some now,
           data := some d, error := none }, some ⟨now, d⟩)

/-! ## IMF route handler, cache-backed variant
(src/src/app/api/imf/route.ts, first handler in the file) -/

/-- Constant `EUROZONE_COUNTRIES` of the IMF route (19 codes, no HRV). -/
def EUROZONE_COUNTRIES_IMF : List String :=
  ["AUT", "BEL", "CYP", "EST", "FIN", "FRA", "DEU", "GRC", "IRL",
   "ITA", "LVA", "LTU", "LUX", "MLT", "NLD", "PRT", "SVK", "SVN", "ESP"]

/-- Content of the GDP cache file `imf_gdp_cache.json`. -/
structure GDPCacheData where
  timestamp : ℕ
  data : Obj ℚ
  year : String
  eurozoneCountries : List String
deriving DecidableEq, Repr

/-- `isCacheValid`: the cache age is under seven days. Timestamps are
epoch milliseconds; the subtraction is over ℤ as in JavaScript. -/
def isCacheValid (now : ℕ) (c : GDPCacheData) : Bool :=
  ((now : ℤ) - (c.timestamp : ℤ)) < 7 * 24 * 60 * 60 * 1000

/-- JSON response the IMF route handler returns. -/
structure ImfResponse where
  status : ℕ
  data : Option (Obj ℚ)
  year : Option String
  timestamp : Option ℕ
  eurozoneCountries : Option (List String)
  source : Option String
  error : Option String
deriving DecidableEq, Repr

/-- The cache-serving response of the IMF handler: the stored payload,
year and timestamp, tagged `source: "cache"`, HTTP 200. -/
def imfCacheResponse (c : GDPCacheData) : ImfResponse :=
  { status := 200, data := some c.data, year := some c.year,
    timestamp := some c.timestamp, eurozoneCountries := some c.eurozoneCountries,
    source := some "cache", error := none }

/-- The `combinedData` record the IMF handler builds from a fetched GDP
table: current timestamp, target year, the GDP values copied entry by
entry, and the Eurozone code list. -/
def imfCombine (now : ℕ) (targetYear : String) (gdpData : Obj ℚ) : GDPCacheData :=
  { timestamp := now, year := targetYear,
    data := gdpData.foldl (fun m e => oinsert m e.1 e.2) [],
    eurozoneCountries := EUROZONE_COUNTRIES_IMF }

/-- Continuation of the IMF `GET` after the initial valid-cache check:
a failed fetch falls back to the cache file or answers HTTP 500; a
fetched table with fewer than 20 countries falls back to the cache file
or answers HTTP 500 (tagged `IMF API (insufficient data)`); otherwise
the combined data is cached and served with `source: "IMF API"`. -/
def imfGETFetched (now : ℕ) (targetYear : String) (cache : Option GDPCacheData)
    (fetchResult : Option (Obj ℚ)) : ImfResponse × Option GDPCacheData :=
  match fetchResult with
  | none =>
    match cache with
    | some c => (imfCacheResponse c, cache)
    | none =>
        ({ status := 500, data := none, year := none, timestamp := none,
           eurozoneCountries := none, source := none,
           error := some "Failed to fetch from IMF API and no cache available" },
         cache)
  | some gdpData =>
    let combined := imfCombine now targetYear gdpData
    let countryCount := combined.data.length
    if countryCount < 20 then
      match cache with
      | some c => (imfCacheResponse c, cache)
      | none =>
          ({ status := 500, data := some combined.data, year := some combined.year,
             timestamp := some combined.timestamp,
             eurozoneCountries := some combined.eurozoneCountries,
             source := some "IMF API (insufficient data)",
             error := some ("Only found " ++ toString countryCount ++
               " countries, which is less than the expected minimum of 20") },
           cache)
    else
      (({ status := 200, data := some combined.data, year := some combined.year,
          timestamp := some combined.timestamp,
          eurozoneCountries := some combined.eurozoneCountries,
          source := some "IMF API", error := none } : ImfResponse),
       some combined)

/-- `GET` of the cache-backed IMF route. When the cache file exists and
is under seven days old the handler serves it without attempting a live
fetch; otherwise it proceeds with the fetch outcome `fetchResult`
(`none` is a fetch that failed or timed out, `some` carries the parsed
per-country GDP table). -/
def imfGET (now : ℕ) (targetYear : String) (cache : Option GDPCacheData)
    (fetchResult : Option (Obj ℚ)) : ImfResponse × Option GDPCacheData :=
  match cache with
  | some c =>
      if isCacheValid now c then (imfCacheResponse c, cache)
      else imfGETFetched now targetYear cache fetchResult
  | none => imfGETFetched now targetYear none fetchResult

/-! ## IMF route, strategy-chain variant
(src/src/app/api/imf/route.ts, second handler: `fetchGDPData`) -/

/-- Parsed body of one IMF response, as far as `fetchGDPData` inspects
it: the `datasets.NGDPD` table, the `values.NGDPD` table (each a map
from country code to a map from year string to a value that may or may
not be a number), or neither. `none` in the inner value stands for a
property that is present but not a number (`typeof x === "number"`
fails); an absent year key is simply missing from the list. -/
structure ImfApiResponse where
  datasetsNGDPD : Option (Obj (Obj (Option ℚ)))
  valuesNGDPD : Option (Obj (Obj (Option ℚ)))
deriving DecidableEq, Repr

/-- Outcome of one transport approach: the error it threw (network
failure, timeout, non-OK status of the direct call or of a proxy), or
the JSON body it returned. -/
inductive ApproachOutcome where
  | fetchError (err : String)
  | response (resp : ImfApiResponse)
deriving DecidableEq, Repr

/-- The per-country extraction loop of `fetchGDPData`: for each country
of the NGDPD table, store the value under the requested year when that
value is a number. -/
def buildGdp (year : ℕ) (t : Obj (Obj (Option ℚ))) : Obj ℚ :=
  t.foldl
    (fun m e =>
      match olookup e.2 (toString year) with
      | some (some v) => oinsert m e.1 v
      | _ => m) []

/-- The minimum-country check of `fetchGDPData`: fewer than 20 countries
throws `Insufficient data returned from IMF API` (inside the per-approach
try, hence a soft failure). -/
def checkCount (gdp : Obj ℚ) : Except String (Obj ℚ) :=
  if gdp.length < 20 then Except.error "Insufficient data returned from IMF API"
  else Except.ok gdp

/-- Body of one iteration of the approach loop in `fetchGDPData`: a
thrown fetch is the error itself; a body is decoded from the
`datasets.NGDPD` shape, else from the `values.NGDPD` shape, else throws
`Unexpected response structure from IMF API`; a decoded table then
passes the minimum-country check. -/
def processApproach (year : ℕ) : ApproachOutcome → Except String (Obj ℚ)
  | ApproachOutcome.fetchError e => Except.error e
  | ApproachOutcome.response resp =>
    match resp.datasetsNGDPD with
    | some t => checkCount (buildGdp year t)
    | none =>
      match resp.valuesNGDPD with
      | some t => checkCount (buildGdp year t)
      | none => Except.error "Unexpected response structure from IMF API"

/-- The approach loop of `fetchGDPData` with the running `lastError`:
the first approach that processes successfully returns its table; a
failing approach records its error and the loop advances; when the list
is exhausted the last error is thrown (or the catch-all message when no
approach ran). -/
def fetchGDPDataGo (year : ℕ) :
    List ApproachOutcome → Option String → Except String (Obj ℚ)
  | [], lastError =>
      Except.error (lastError.getD "All approaches to fetch IMF data failed")
  | a :: rest, lastError =>
    match processApproach year a with
    | Except.ok gdp => Except.ok gdp
    | Except.error e => fetchGDPDataGo year rest (some e)

/-- `fetchGDPData(year)` of the strategy-chain IMF handler, as a function
of the outcomes of its (ordered) transport approaches. -/
def fetchGDPData (year : ℕ) (approaches : List ApproachOutcome) :
    Except String (Obj ℚ) :=
  fetchGDPDataGo year approaches none

/-! ## Snapshot cache file under interrupted writes

The cache writers of both routes are
`fs.writeFileSync(file, JSON.stringify(data, null, 2))`: a direct
in-place overwrite, not a write-to-temporary-then-rename. The state of
the cache file is modelled as absent, a completely written record, or a
record whose serialisation was cut off after `k` bytes by a crash during
the overwrite. `JSON.parse` rejects every strict prefix of
`JSON.stringify` of an object (the braces balance only at the end), so
`readFromCache` catches the parse error of a truncated file and returns
null, exactly as it does for an absent file. -/
inductive CacheFileState where
  | absent
  | complete (d : GDPCacheData)
  | truncated (d : GDPCacheData) (k : ℕ)
deriving DecidableEq, Repr

/-- `readFromCache`: the parsed record of a completely written file;
an absent file, or a truncated file whose parse throws, returns null. -/
def readFromCache : CacheFileState → Option GDPCacheData
  | CacheFileState.absent => none
  | CacheFileState.complete d => some d
  | CacheFileState.truncated _ _ => none

/-- `writeToCache(data)` under a crash model: `crash = none` is an
uninterrupted `writeFileSync` leaving the full record; `crash = some k`
is a crash after `k` bytes of the in-place overwrite, leaving a
truncated file. The previous content is destroyed either way, since the
source overwrites the one cache file directly. -/
def writeToCache (prev : CacheFileState) (d : GDPCacheData) (crash : Option ℕ) :
    CacheFileState :=
  match crash with
  | none => CacheFileState.complete d
  | some k => CacheFileState.truncated d k

/-! ## Aggregator (src/src/app/page.tsx, `loadData` and its helpers;
src/unnamed/part_003 carries the same pipeline) -/

/-- Classification tag of a ranked entity. -/
inductive CType where
  | crypto
  | metal
  | fiat
deriving DecidableEq, Repr

/-- The `Currency` record of the page (one ranked entity). -/
structure Currency where
  rank : ℕ
  code : String
  name : String
  economicSize : ℚ
  satsPerUnit : ℚ
  valueOfOneSat : ℚ
  type : CType
deriving DecidableEq, Repr

/-- Constant `CountryCodeToCurrencyCode` of the page: the static
many-to-one country-to-currency table, ISO-3, ISO-2 and Euro-area
alternate codes included. -/
def CountryCodeToCurrencyCode : Obj String :=
  [("USA", "USD"), ("US", "USD"), ("EMU", "EUR"), ("XS", "EUR"), ("EA", "EUR"),
   ("JPN", "JPY"), ("JP", "JPY"), ("GBR", "GBP"), ("GB", "GBP"),
   ("CHN", "CNY"), ("CN", "CNY"), ("IND", "INR"), ("IN", "INR"),
   ("CAN", "CAD"), ("CA", "CAD"), ("AUS", "AUD"), ("AU", "AUD"),
   ("BRA", "BRL"), ("BR", "BRL"), ("RUS", "RUB"), ("RU", "RUB"),
   ("KOR", "KRW"), ("KR", "KRW"), ("SGP", "SGD"), ("SG", "SGD"),
   ("CHE", "CHF"), ("CH", "CHF"), ("HKG", "HKD"), ("HK", "HKD"),
   ("SWE", "SEK"), ("SE", "SEK"), ("MEX", "MXN"), ("MX", "MXN"),
   ("ZAF", "ZAR"), ("ZA", "ZAR"), ("NOR", "NOK"), ("NO", "NOK"),
   ("NZL", "NZD"), ("NZ", "NZD"), ("THA", "THB"), ("TH", "THB"),
   ("TUR", "TRY"), ("TR", "TRY"), ("POL", "PLN"), ("PL", "PLN"),
   ("DNK", "DKK"), ("DK", "DKK"), ("IDN", "IDR"), ("ID", "IDR"),
   ("PHL", "PHP"), ("PH", "PHP"), ("MYS", "MYR"), ("MY", "MYR"),
   ("CZE", "CZK"), ("CZ", "CZK"), ("CHL", "CLP"), ("CL", "CLP"),
   ("ARG", "ARS"), ("AR", "ARS"), ("ISR", "ILS"), ("IL", "ILS"),
   ("COL", "COP"), ("CO", "COP"), ("SAU", "SAR"), ("SA", "SAR"),
   ("ARE", "AED"), ("AE", "AED"), ("TWN", "TWD"), ("TW", "TWD"),
   ("ROU", "RON"), ("RO", "RON"), ("HUN", "HUF"), ("HU", "HUF"),
   ("VNM", "VND"), ("VN", "VND"), ("PAK", "PKR"), ("PK", "PKR"),
   ("NGA", "NGN"), ("NG", "NGN"),
   ("AUT", "EUR"), ("BEL", "EUR"), ("HRV", "EUR"), ("CYP", "EUR"),
   ("EST", "EUR"), ("FIN", "EUR"), ("FRA", "EUR"), ("DEU", "EUR"),
   ("GRC", "EUR"), ("IRL", "EUR"), ("ITA", "EUR"), ("LVA", "EUR"),
   ("LTU", "EUR"), ("LUX", "EUR"), ("MLT", "EUR"), ("NLD", "EUR"),
   ("PRT", "EUR"), ("SVK", "EUR"), ("SVN", "EUR"), ("ESP", "EUR")]

/-- Constant `EUROZONE_COUNTRIES` of the page (20 codes, HRV included). -/
def EUROZONE_COUNTRIES : List String :=
  ["AUT", "BEL", "CYP", "EST", "FIN", "FRA", "DEU", "GRC", "IRL", "ITA",
   "LVA", "LTU", "LUX", "MLT", "NLD", "PRT", "SVK", "SVN", "ESP", "HRV"]

/-- `mapCountryCodeToCurrency`: table lookup, null when unmapped. -/
def mapCountryCodeToCurrency (countryCode : String) : Option String :=
  olookup CountryCodeToCurrencyCode countryCode

/-- `isEurozoneCountry`: membership in `EUROZONE_COUNTRIES`. -/
def isEurozoneCountry (countryCode : String) : Bool :=
  EUROZONE_COUNTRIES.contains countryCode

/-- `getCurrencyName`: display name of a currency code, the code itself
when unknown. -/
def getCurrencyName (code : String) : String :=
  (olookup
    [("USD", "US Dollar"), ("EUR", "Euro"), ("JPY", "Japanese Yen"),
     ("GBP", "British Pound"), ("CNY", "Chinese Yuan"), ("INR", "Indian Rupee"),
     ("CAD", "Canadian Dollar"), ("AUD", "Australian Dollar"),
     ("BRL", "Brazilian Real"), ("RUB", "Russian Ruble"),
     ("KRW", "South Korean Won"), ("SGD", "Singapore Dollar"),
     ("CHF", "Swiss Franc"), ("HKD", "Hong Kong Dollar"),
     ("SEK", "Swedish Krona"), ("MXN", "Mexican Peso"),
     ("ZAR", "South African Rand"), ("NOK", "Norwegian Krone"),
     ("NZD", "New Zealand Dollar"), ("THB", "Thai Baht"),
     ("TRY", "Turkish Lira"), ("PLN", "Polish Zloty"),
     ("DKK", "Danish Krone"), ("IDR", "Indonesian Rupiah"),
     ("PHP", "Philippine Peso"), ("MYR", "Malaysian Ringgit"),
     ("CZK", "Czech Koruna"), ("CLP", "Chilean Peso"),
     ("ARS", "Argentine Peso"), ("ILS", "Israeli New Shekel"),
     ("COP", "Colombian Peso"), ("SAR", "Saudi Riyal"),
     ("AED", "UAE Dirham"), ("TWD", "Taiwan Dollar"),
     ("RON", "Romanian Leu"), ("HUF", "Hungarian Forint"),
     ("VND", "Vietnamese Dong"), ("PKR", "Pakistani Rupee"),
     ("NGN", "Nigerian Naira")] code).getD code

/-- One iteration of the GDP-processing loop of `loadData`. The state is
the pair of `processedGdpData` and `totalEurozoneGdp`: a Eurozone member
adds its absolute GDP (billions times 1e9) to the running total; a
country with a currency mapping writes its absolute GDP under the
currency code (overwriting any earlier country of the same currency). -/
def processGdpStep (st : Obj ℚ × ℚ) (e : String × ℚ) : Obj ℚ × ℚ :=
  let tot := if isEurozoneCountry e.1 then st.2 + e.2 * 1000000000 else st.2
  match mapCountryCodeToCurrency e.1 with
  | some currencyCode => (oinsert st.1 currencyCode (e.2 * 1000000000), tot)
  | none => (st.1, tot)

/-- The GDP-processing phase of `loadData`: run the loop over the GDP
table, then unconditionally overwrite the `EUR` entry with the summed
Eurozone member GDP (`processedGdpData["EUR"] = totalEurozoneGdp`). -/
def processGdp (gdp : Obj ℚ) : Obj ℚ :=
  let st := gdp.foldl processGdpStep ([], 0)
  oinsert st.1 "EUR" st.2

/-- Constant `TOP_CURRENCIES_LIMIT = 30` of the page. -/
def TOP_CURRENCIES_LIMIT : ℕ := 30

/-- The Bitcoin row of `loadData`: market cap is the USD price times the
assumed circulating supply of 19500000 BTC. -/
def btcEntry (btcPriceUSD : ℚ) : Currency :=
  { rank := 0, code := "BTC", name := "Bitcoin",
    economicSize := btcPriceUSD * 19500000,
    satsPerUnit := 100000000,
    valueOfOneSat := btcPriceUSD / 100000000,
    type := CType.crypto }

/-- Troy ounces per metric ton, constant of `loadData`. -/
def METRIC_TON_TO_TROY_OUNCES : ℚ := (32150746 : ℚ) / 1000

/-- One metal row of `loadData`, emitted only when the price feed has a
truthy (present, nonzero) BTC-in-metal quote: the metal USD price is
the USD BTC price divided by the metal quote, the market cap the fixed
supply (metric tons) times troy ounces per ton times the USD price. -/
def metalEntry (code displayName : String) (supplyTons : ℚ) (btcPriceUSD : ℚ)
    (quote : Option ℚ) : List Currency :=
  match quote with
  | none => []
  | some x =>
    if x = 0 then []
    else
      [{ rank := 0, code := code, name := displayName,
         economicSize := supplyTons * METRIC_TON_TO_TROY_OUNCES * (btcPriceUSD / x),
         satsPerUnit := 100000000 / x,
         valueOfOneSat := x / 100000000,
         type := CType.metal }]

/-- The Gold and Silver rows of `loadData` (215000 and 1800000 metric
tons of assumed surface supply). -/
def metalEntries (bitcoin : Obj ℚ) (btcPriceUSD : ℚ) : List Currency :=
  metalEntry "XAU" "Gold" 215000 btcPriceUSD (olookup bitcoin "xau") ++
    metalEntry "XAG" "Silver" 1800000 btcPriceUSD (olookup bitcoin "xag")

/-- One iteration of the fiat-candidate loop of `loadData`, over the keys
of `processedGdpData`: skip the reserved codes, skip a currency whose
BTC price is missing or falsy (recording a diagnostic in the source),
otherwise push the fiat row with the GDP as economic size. -/
def fiatStep (bitcoin gdpMap : Obj ℚ) (acc : List Currency)
    (currencyCode : String) : List Currency :=
  if currencyCode = "BTC" ∨ currencyCode = "XAU" ∨ currencyCode = "XAG" then acc
  else
    let gdpInUSD := (olookup gdpMap currencyCode).getD 0
    match olookup bitcoin (lowerStr currencyCode) with
    | none => acc
    | some btcPrice =>
      if btcPrice = 0 then acc
      else
        acc ++
          [{ rank := 0, code := currencyCode,
             name := getCurrencyName currencyCode,
             economicSize := gdpInUSD,
             satsPerUnit := 100000000 / btcPrice,
             valueOfOneSat := btcPrice / 100000000,
             type := CType.fiat }]

/-- The fiat candidate list of `loadData`: the fiat loop over the keys of
the processed GDP map, in insertion order. -/
def fiatCurrencies (bitcoin gdp : Obj ℚ) : List Currency :=
  ((processGdp gdp).map Prod.fst).foldl (fiatStep bitcoin (processGdp gdp)) []

/-- Stable sort by economic size descending: the model of
`.sort((a, b) => b.economicSize - a.economicSize)` (JavaScript sort is
stable, as is insertion sort). -/
def sortByEconomicSizeDesc (l : List Currency) : List Currency :=
  List.insertionSort (fun a b => b.economicSize ≤ a.economicSize) l

/-- Rank assignment of `loadData`:
`.map((currency, index) => (... rank: index + 1))`, here with the first
index passed explicitly. -/
def assignRanks : ℕ → List Currency → List Currency
  | _, [] => []
  | n, c :: cs => { c with rank := n } :: assignRanks (n + 1) cs

/-- The aggregation pipeline of `loadData`, from the price map
(`bitcoinData.bitcoin`, lower-case currency keys) and the GDP table
(`gdpData.data`, country-code keys, billions of USD) to the ranked
entity list. When the USD price is absent the source would propagate
undefined/NaN through every derived number; that degenerate path is
outside the model and returns the empty list. -/
def loadData (bitcoin gdp : Obj ℚ) : List Currency :=
  match olookup bitcoin "usd" with
  | none => []
  | some btcPriceUSD =>
    let fiats := fiatCurrencies bitcoin gdp
    let topFiatCurrencies := (sortByEconomicSizeDesc fiats).take TOP_CURRENCIES_LIMIT
    let allCurrencies := ([btcEntry btcPriceUSD] ++ metalEntries bitcoin btcPriceUSD)
      ++ topFiatCurrencies
    if allCurrencies.isEmpty then []
    else assignRanks 1 (sortByEconomicSizeDesc allCurrencies)

/-! ## Concrete fixtures used by the closed witness theorems -/

/-- A snapshot fixture with timestamp 0. -/
def cacheFix : GDPCacheData := ⟨0, [("USA", 25000)], "2024", EUROZONE_COUNTRIES_IMF⟩

/-- Snapshot written at t = 100. -/
def snapshotT100 : GDPCacheData := ⟨100, [("USA", 25000)], "2024", EUROZONE_COUNTRIES_IMF⟩

/-- A second snapshot whose write will be interrupted. -/
def snapshotT200 : GDPCacheData := ⟨200, [("USA", 26000)], "2025", EUROZONE_COUNTRIES_IMF⟩

/-- A well-shaped NGDPD table with exactly 20 countries for year 2024. -/
def table20Fix : Obj (Obj (Option ℚ)) :=
  [("USA", [("2024", some 25000)]), ("CHN", [("2024", some 18000)]),
   ("JPN", [("2024", some 4000)]), ("DEU", [("2024", some 4500)]),
   ("IND", [("2024", some 3900)]), ("GBR", [("2024", some 3400)]),
   ("FRA", [("2024", some 3100)]), ("ITA", [("2024", some 2300)]),
   ("BRA", [("2024", some 2200)]), ("CAN", [("2024", some 2100)]),
   ("RUS", [("2024", some 2000)]), ("MEX", [("2024", some 1800)]),
   ("AUS", [("2024", some 1700)]), ("KOR", [("2024", some 1700)]),
   ("ESP", [("2024", some 1600)]), ("IDN", [("2024", some 1400)]),
   ("NLD", [("2024", some 1100)]), ("TUR", [("2024", some 1100)]),
   ("SAU", [("2024", some 1100)]), ("CHE", [("2024", some 900)])]

/-- A well-shaped NGDPD table with a single country for year 2024. -/
def table1Fix : Obj (Obj (Option ℚ)) := [("USA", [("2024", some 25000)])]

/-- A small price map fixture: USD, EUR, JPY and a gold quote. -/
def bitcoinFix : Obj ℚ := [("usd", 100000), ("eur", 90000), ("xau", 30), ("jpy", 15000000)]

/-- The Eurozone-members GDP table of the worked example of the spec. -/
def gdpEzFix : Obj ℚ := [("AUT", 10), ("BEL", 20), ("CYP", 5)]

/-- A GDP table holding only a Euro-area aggregate record. -/
def gdpEmuFix : Obj ℚ := [("EMU", 15000)]

/-- The summed GDP (billions) of the records whose country code is a
Eurozone member: what the processing loop accumulates into
`totalEurozoneGdp` (before the conversion to absolute USD). -/
def eurozoneMembersSum (gdp : Obj ℚ) : ℚ :=
  ((gdp.filter (fun e => isEurozoneCountry e.1)).map Prod.snd).sum

/-- Erase the rank of an entity; rank is the only field the final
rank-assignment pass rewrites. -/
def unrank (c : Currency) : Currency := { c with rank := 0 }

/-- Totality of the descending-economic-size sort relation. -/
instance : IsTotal Currency (fun a b => b.economicSize ≤ a.economicSize) :=
  ⟨fun a b => le_total b.economicSize a.economicSize⟩

/-- Transitivity of the descending-economic-size sort relation. -/
instance : IsTrans Currency (fun a b => b.economicSize ≤ a.economicSize) :=
  ⟨fun _ _ _ hab hbc => le_trans hbc hab⟩

/-- A price map quoting every one of the 39 distinct currencies of the
country-to-currency table (prices arbitrary and nonzero). -/
def bitcoinAllFix : Obj ℚ :=
  [("usd", 100000), ("eur", 90000), ("jpy", 15000000), ("gbp", 80000),
   ("cny", 700000), ("inr", 8000000), ("cad", 140000), ("aud", 150000),
   ("brl", 500000), ("rub", 9000000), ("krw", 140000000), ("sgd", 130000),
   ("chf", 90000), ("hkd", 780000), ("sek", 1000000), ("mxn", 1700000),
   ("zar", 1800000), ("nok", 1000000), ("nzd", 160000), ("thb", 3400000),
   ("try", 3500000), ("pln", 400000), ("dkk", 690000), ("idr", 1600000000),
   ("php", 5600000), ("myr", 440000), ("czk", 2300000), ("clp", 90000000),
   ("ars", 100000000), ("ils", 370000), ("cop", 400000000), ("sar", 380000),
   ("aed", 370000), ("twd", 3200000), ("ron", 460000), ("huf", 36000000),
   ("vnd", 2500000000), ("pkr", 28000000), ("ngn", 160000000)]

/-- A GDP table with 39 countries mapping to the 39 distinct currencies
of the table, Germany standing for the Eurozone. -/
def gdpAllFix : Obj ℚ :=
  [("USA", 27000), ("CHN", 18000), ("DEU", 4500), ("JPN", 4200),
   ("IND", 3900), ("GBR", 3400), ("BRA", 2200), ("CAN", 2100),
   ("RUS", 2000), ("MEX", 1800), ("AUS", 1700), ("KOR", 1700),
   ("IDN", 1400), ("TUR", 1100), ("SAU", 1100), ("CHE", 900),
   ("POL", 800), ("TWN", 750), ("ARG", 640), ("SWE", 620),
   ("NOR", 540), ("ISR", 520), ("ARE", 500), ("THA", 500),
   ("SGP", 500), ("VNM", 430), ("PHL", 440), ("DNK", 400),
   ("MYS", 400), ("COL", 360), ("ZAF", 380), ("HKG", 380),
   ("PAK", 340), ("CHL", 340), ("NGA", 250), ("CZE", 330),
   ("NZL", 250), ("HUN", 210), ("ROU", 350)]

/-! ## Theorems settling the claims -/

/-- Claim C8, counterexample: `satsToFiat` has no guard on the price, so
at amount 100000000 sats and price -5 it returns -5, not the 0 the claim
asserts for every non-positive price (and `btcToFiat(1, -5) = -5` likewise). -/
theorem satsToFiat_negative_price_not_zero :
    satsToFiat 100000000 (-5) = -5 ∧ ¬ satsToFiat 100000000 (-5) = 0 ∧
      btcToFiat 1 (-5) = -5 ∧ ¬ btcToFiat 1 (-5) = 0 := by
  norm_num [satsToFiat, satsToBtc, btcToFiat, SATS_PER_BTC]

/-- Claim C8, amended: for every amount and non-positive price, the two
dividing conversions `fiatToSats` and `fiatToBtc` return the defined
result 0 (so no division by a non-positive price ever happens); the two
multiplying conversions `satsToFiat` and `btcToFiat` are unguarded pure
products, equal to 0 when the price is 0 but equal to amount times price
(nonzero in general) for a negative price. -/
theorem conversions_nonpositive_price (a p : ℚ) (hp : p ≤ 0) :
    fiatToSats a p = 0 ∧ fiatToBtc a p = 0 ∧
      satsToFiat a p = a / SATS_PER_BTC * p ∧ btcToFiat a p = a * p ∧
      satsToFiat a 0 = 0 ∧ btcToFiat a 0 = 0 := by
  refine ⟨?_, ?_, ?_, rfl, ?_, ?_⟩
  · simp [fiatToSats, hp]
  · simp [fiatToBtc, hp]
  · simp [satsToFiat, satsToBtc]
  · simp [satsToFiat, satsToBtc]
  · simp [btcToFiat]

/-- Claim C8, witness: the amended statement at amount 2 and price -5. -/
theorem conversions_nonpositive_price_witness :
    fiatToSats 2 (-5) = 0 ∧ fiatToBtc 2 (-5) = 0 ∧
      satsToFiat 2 (-5) = 2 / SATS_PER_BTC * (-5) ∧ btcToFiat 2 (-5) = 2 * (-5) ∧
      satsToFiat 2 0 = 0 ∧ btcToFiat 2 0 = 0 :=
  conversions_nonpositive_price 2 (-5) (by norm_num)

/-- Claim C9: `formatFiat` raises for a malformed currency code instead
of returning the composite fallback string. The `Intl.NumberFormat`
constructor (which throws the RangeError for a code that is not three
ASCII letters) runs OUTSIDE the try/catch of the source, so the thrown
error propagates out of `formatFiat`; the code comment and the claim
expect the catch fallback, but that catch only wraps the total
`formatter.format` call. A well-formed code never throws at all (second
conjunct), so the fallback branch is unreachable on every input. -/
theorem formatFiat_malformed_code_throws (fmt : ℚ → String) :
    formatFiat fmt 5 "EURO" = Except.error "RangeError: invalid currency code" ∧
      formatFiat fmt 5 "xyz" = Except.ok (fmt 5) := by
  exact ⟨rfl, rfl⟩

/-- Claim C7, counterexample: the cache write is a direct in-place
`writeFileSync` overwrite, so a crash during the second write truncates
the one cache file and the subsequent read returns null, not the
snapshot written at t = 100 as the claim asserts. -/
theorem interrupted_overwrite_loses_snapshot :
    readFromCache
        (writeToCache (writeToCache CacheFileState.absent snapshotT100 none)
          snapshotT200 (some 5)) = none ∧
      ¬ readFromCache
          (writeToCache (writeToCache CacheFileState.absent snapshotT100 none)
            snapshotT200 (some 5)) = some snapshotT100 := by
  exact ⟨rfl, by simp [writeToCache, readFromCache]⟩

/-- Claim C7, amended: a read after a write never yields a corrupted or
torn record — an interrupted write parses as nothing and reads as an
absence signal (the prior snapshot is lost, since the overwrite is not
atomic), while an uninterrupted write reads back complete. -/
theorem write_crash_read_absent_or_complete :
    (∀ prev (d : GDPCacheData) k,
        readFromCache (writeToCache prev d (some k)) = none) ∧
      (∀ prev (d : GDPCacheData),
        readFromCache (writeToCache prev d none) = some d) :=
  ⟨fun _ _ _ => rfl, fun _ _ => rfl⟩

/-- Claim C1: with every live fetch failed, each route serves the stored
snapshot payload with `source: "cache"` and the stored timestamp (HTTP
200) when a snapshot exists, and answers HTTP 500 with only an error
message (no payload) when none exists. Stated for the CoinGecko route
(thrown fetch, and fetched body failing the shape check) and for the
cache-backed IMF route (fetch result null). -/
theorem total_failure_snapshot_or_500 :
    (∀ now e (c : CGCacheData),
        coingeckoGET now (some c) (Except.error e) =
          ({ status := 200, source := some "cache", timestamp := some c.timestamp,
             data := some c.data, error := none }, some c)) ∧
      (∀ now (c : CGCacheData),
        coingeckoGET now (some c) (Except.ok ⟨none⟩) =
          ({ status := 200, source := some "cache", timestamp := some c.timestamp,
             data := some c.data, error := none }, some c)) ∧
      (∀ now e,
        coingeckoGET now none (Except.error e) =
          ({ status := 500, source := none, timestamp := none, data := none,
             error := some "Failed to fetch from CoinGecko API and no cache available" },
           none)) ∧
      (∀ now targetYear (c : GDPCacheData),
        imfGET now targetYear (some c) none =
          ({ status := 200, data := some c.data, year := some c.year,
             timestamp := some c.timestamp,
             eurozoneCountries := some c.eurozoneCountries,
             source := some "cache", error := none }, some c)) ∧
      (∀ now targetYear,
        imfGET now targetYear none none =
          ({ status := 500, data := none, year := none, timestamp := none,
             eurozoneCountries := none, source := none,
             error := some "Failed to fetch from IMF API and no cache available" },
           none)) := by
  refine ⟨fun _ _ _ => rfl, fun _ _ => rfl, fun _ _ => rfl, ?_, fun _ _ => rfl⟩
  intro now targetYear c
  unfold imfGET
  by_cases h : isCacheValid now c
  · simp [h, imfCacheResponse]
  · simp [h, imfGETFetched, imfCacheResponse]

/-- Claim C6: the seven-day staleness window only decides whether a live
fetch is attempted — a still-valid snapshot is served without consulting
the fetch at all (first conjunct, where the response does not depend on
`fetchResult`), and on the fallback path a snapshot of any age, however
stale, is served rather than rejected (second conjunct, with no
hypothesis on `isCacheValid`). -/
theorem staleness_only_gates_fetch :
    (∀ now targetYear (c : GDPCacheData) fetchResult,
        isCacheValid now c = true →
        imfGET now targetYear (some c) fetchResult = (imfCacheResponse c, some c)) ∧
      (∀ now targetYear (c : GDPCacheData),
        imfGET now targetYear (some c) none = (imfCacheResponse c, some c)) := by
  constructor
  · intro now targetYear c fetchResult h
    unfold imfGET
    simp [h]
  · intro now targetYear c
    unfold imfGET
    by_cases h : isCacheValid now c
    · simp [h]
    · simp [h, imfGETFetched]

/-- Claim C6, witness: a fresh snapshot (age 0) is served with the fetch
result ignored, and the very same snapshot at age exactly seven days
(stale, `isCacheValid` false) is still served on the fallback path. -/
theorem staleness_only_gates_fetch_witness :
    imfGET 0 "2024" (some cacheFix) none = (imfCacheResponse cacheFix, some cacheFix) ∧
      imfGET 604800000 "2024" (some cacheFix) none =
        (imfCacheResponse cacheFix, some cacheFix) :=
  ⟨staleness_only_gates_fetch.1 0 "2024" cacheFix none (by decide),
   staleness_only_gates_fetch.2 604800000 "2024" cacheFix⟩

/-- Helper: a run of the approach loop whose approaches all fail ends in
the error of the last approach, whatever the incoming `lastError`. -/
theorem fetchGDPDataGo_all_fail (year : ℕ) :
    ∀ (approaches : List ApproachOutcome) (a : ApproachOutcome) (e : String),
      (∀ b ∈ approaches, ∃ e2, processApproach year b = Except.error e2) →
      approaches.getLast? = some a →
      processApproach year a = Except.error e →
      ∀ lastError, fetchGDPDataGo year approaches lastError = Except.error e := by
  intro approaches
  induction approaches with
  | nil => intro a e _ hlast; simp at hlast
  | cons b bs ih =>
    intro a e hall hlast ha lastError
    obtain ⟨eb, heb⟩ := hall b (List.mem_cons_self b bs)
    rw [fetchGDPDataGo, heb]
    cases bs with
    | nil =>
      simp [List.getLast?] at hlast
      subst hlast
      rw [heb] at ha
      cases ha
      rfl
    | cons c cs =>
      have hlast2 : (c :: cs).getLast? = some a := by
        simpa [List.getLast?_cons_cons] using hlast
      exact ih a e (fun x hx => hall x (List.mem_cons_of_mem b hx)) hlast2 ha (some eb)

/-- Helper: failing approaches at the front of the list are skipped, and
the first approach that processes successfully returns its payload,
whatever the incoming `lastError`. -/
theorem fetchGDPDataGo_first_success (year : ℕ) :
    ∀ (pre : List ApproachOutcome) (a : ApproachOutcome)
      (rest : List ApproachOutcome) (gdp : Obj ℚ),
      (∀ b ∈ pre, ∃ e, processApproach year b = Except.error e) →
      processApproach year a = Except.ok gdp →
      ∀ lastError,
        fetchGDPDataGo year (pre ++ a :: rest) lastError = Except.ok gdp := by
  intro pre
  induction pre with
  | nil =>
    intro a rest gdp _ ha lastError
    rw [List.nil_append, fetchGDPDataGo, ha]
  | cons b bs ih =>
    intro a rest gdp hall ha lastError
    obtain ⟨eb, heb⟩ := hall b (List.mem_cons_self b bs)
    rw [List.cons_append, fetchGDPDataGo, heb]
    exact ih a rest gdp (fun x hx => hall x (List.mem_cons_of_mem b hx)) ha (some eb)

/-- Claim C2: the strategy chain of `fetchGDPData`. A failing approach
(thrown fetch, unexpected shape, or insufficient data — everything that
makes `processApproach` an error) only advances the loop, recording its
error (first conjunct); the first successfully processed approach
determines the returned payload (second conjunct); and when every
approach fails, `fetchGDPData` throws exactly the last approach's
recorded error (third conjunct). -/
theorem fetchGDPData_strategy_chain :
    (∀ year a rest lastError e, processApproach year a = Except.error e →
        fetchGDPDataGo year (a :: rest) lastError =
          fetchGDPDataGo year rest (some e)) ∧
      (∀ year (pre : List ApproachOutcome) a rest (gdp : Obj ℚ),
        (∀ b ∈ pre, ∃ e, processApproach year b = Except.error e) →
        processApproach year a = Except.ok gdp →
        fetchGDPData year (pre ++ a :: rest) = Except.ok gdp) ∧
      (∀ year (approaches : List ApproachOutcome) a e,
        (∀ b ∈ approaches, ∃ e2, processApproach year b = Except.error e2) →
        approaches.getLast? = some a →
        processApproach year a = Except.error e →
        fetchGDPData year approaches = Except.error e) := by
  refine ⟨?_, ?_, ?_⟩
  · intro year a rest lastError e ha
    rw [fetchGDPDataGo, ha]
  · intro year pre a rest gdp hall ha
    exact fetchGDPDataGo_first_success year pre a rest gdp hall ha none
  · intro year approaches a e hall hlast ha
    exact fetchGDPDataGo_all_fail year approaches a e hall hlast ha none

/-- Claim C2, witness: with a first approach that throws and a second
whose body decodes to the 20-country fixture table, `fetchGDPData`
returns the second approach's validated payload. -/
theorem fetchGDPData_strategy_chain_witness :
    fetchGDPData 2024
        ([ApproachOutcome.fetchError "direct call failed"] ++
          ApproachOutcome.response ⟨some table20Fix, none⟩ :: []) =
      Except.ok (buildGdp 2024 table20Fix) :=
  fetchGDPData_strategy_chain.2.1 2024 [ApproachOutcome.fetchError "direct call failed"]
    (ApproachOutcome.response ⟨some table20Fix, none⟩) [] (buildGdp 2024 table20Fix)
    (by intro b hb; simp at hb; subst hb; exact ⟨"direct call failed", rfl⟩)
    (by rfl)

/-- Claim C5: a GDP payload that decodes from either accepted shape but
holds fewer than 20 countries is handled exactly like a transport
failure. In the strategy-chain handler the approach loop advances with
the recorded insufficiency error (first two conjuncts, one per response
shape); in the cache-backed handler the truncated table is not served as
a success: an existing (even stale) snapshot is served instead (third
conjunct), and without a snapshot the response carries HTTP 500 and the
insufficiency source tag (fourth conjunct). -/
theorem gdp_low_count_soft_failure :
    (∀ year (t : Obj (Obj (Option ℚ))) rest lastError,
        (buildGdp year t).length < 20 →
        fetchGDPDataGo year (ApproachOutcome.response ⟨some t, none⟩ :: rest) lastError =
            fetchGDPDataGo year rest (some "Insufficient data returned from IMF API") ∧
          fetchGDPDataGo year (ApproachOutcome.response ⟨none, some t⟩ :: rest) lastError =
            fetchGDPDataGo year rest (some "Insufficient data returned from IMF API")) ∧
      (∀ now targetYear (table : Obj ℚ) (c : GDPCacheData),
        (imfCombine now targetYear table).data.length < 20 →
        isCacheValid now c = false →
        imfGET now targetYear (some c) (some table) = (imfCacheResponse c, some c)) ∧
      (∀ now targetYear (table : Obj ℚ),
        (imfCombine now targetYear table).data.length < 20 →
        (imfGET now targetYear none (some table)).1.status = 500 ∧
          (imfGET now targetYear none (some table)).1.source =
            some "IMF API (insufficient data)" ∧
          (imfGET now targetYear none (some table)).2 = none) := by
  refine ⟨?_, ?_, ?_⟩
  · intro year t rest lastError hlen
    have hck : checkCount (buildGdp year t) =
        Except.error "Insufficient data returned from IMF API" := by
      unfold checkCount
      rw [if_pos hlen]
    constructor
    · rw [fetchGDPDataGo]
      have : processApproach year (ApproachOutcome.response ⟨some t, none⟩) =
          Except.error "Insufficient data returned from IMF API" := by
        unfold processApproach
        exact hck
      rw [this]
    · rw [fetchGDPDataGo]
      have : processApproach year (ApproachOutcome.response ⟨none, some t⟩) =
          Except.error "Insufficient data returned from IMF API" := by
        unfold processApproach
        exact hck
      rw [this]
  · intro now targetYear table c hlen hstale
    simp only [imfGET, hstale, Bool.false_eq_true, if_false]
    simp only [imfGETFetched]
    rw [if_pos hlen]
  · intro now targetYear table hlen
    simp only [imfGET, imfGETFetched]
    rw [if_pos hlen]
    exact ⟨rfl, rfl, rfl⟩

/-- Claim C5, witness: the single-country table is rejected by the
strategy loop (which advances with the insufficiency error) and by the
cache-backed handler, which serves the stale snapshot when one exists
and answers HTTP 500 tagged `IMF API (insufficient data)` otherwise. -/
theorem gdp_low_count_soft_failure_witness :
    (fetchGDPDataGo 2024 [ApproachOutcome.response ⟨some table1Fix, none⟩] none =
        fetchGDPDataGo 2024 [] (some "Insufficient data returned from IMF API") ∧
      fetchGDPDataGo 2024 [ApproachOutcome.response ⟨none, some table1Fix⟩] none =
        fetchGDPDataGo 2024 [] (some "Insufficient data returned from IMF API")) ∧
      imfGET 604800000 "2024" (some cacheFix) (some [("USA", 25000)]) =
        (imfCacheResponse cacheFix, some cacheFix) ∧
      (imfGET 604800000 "2024" none (some [("USA", 25000)])).1.status = 500 ∧
      (imfGET 604800000 "2024" none (some [("USA", 25000)])).1.source =
        some "IMF API (insufficient data)" ∧
      (imfGET 604800000 "2024" none (some [("USA", 25000)])).2 = none := by
  refine ⟨?_, ?_, ?_⟩
  · exact gdp_low_count_soft_failure.1 2024 table1Fix [] none (by decide)
  · exact gdp_low_count_soft_failure.2.1 604800000 "2024" [("USA", 25000)] cacheFix
      (by decide) (by decide)
  · exact gdp_low_count_soft_failure.2.2 604800000 "2024" [("USA", 25000)] (by decide)

/-- Helper: writing a key the cons head does not carry commutes with the head. -/
theorem oinsert_cons_ne {α : Type} (a : String × α) (m : Obj α) (k : String) (v : α)
    (ha : ¬ a.1 = k) : oinsert (a :: m) k v = a :: oinsert m k v := by
  unfold oinsert
  by_cases hm : m.any (fun e => decide (e.1 = k))
  · rw [if_pos, if_pos hm, List.map_cons, if_neg ha]
    simp [List.any_cons, hm]
  · rw [if_neg, if_neg hm, List.cons_append]
    simp [List.any_cons, ha, hm]

/-- Helper: writing the key of the cons head replaces the head. -/
theorem oinsert_cons_eq {α : Type} (a : String × α) (m : Obj α) (k : String) (v : α)
    (ha : a.1 = k) :
    oinsert (a :: m) k v =
      (k, v) :: m.map (fun e => if e.1 = k then (k, v) else e) := by
  unfold oinsert
  rw [if_pos, List.map_cons, if_pos ha]
  simp [List.any_cons, ha]

/-- Helper: reading a cons object. -/
theorem olookup_cons {α : Type} (a : String × α) (m : Obj α) (k : String) :
    olookup (a :: m) k = if a.1 = k then some a.2 else olookup m k := by
  unfold olookup
  by_cases ha : a.1 = k
  · rw [List.find?_cons_of_pos _ (by simpa using ha), if_pos ha]
    rfl
  · rw [List.find?_cons_of_neg _ (by simpa using ha), if_neg ha]

/-- Helper: rewriting the values stored under key `k` does not change a
read of a different key. -/
theorem olookup_map_keyfix {α : Type} (m : Obj α) (k k2 : String) (v : α)
    (hne : ¬ k2 = k) :
    olookup (m.map (fun e => if e.1 = k then (k, v) else e)) k2 = olookup m k2 := by
  induction m with
  | nil => rfl
  | cons a m ih =>
    rw [List.map_cons, olookup_cons, olookup_cons]
    by_cases ha : a.1 = k
    · rw [if_pos ha]
      have h1 : ¬ ((k, v) : String × α).1 = k2 := fun h => hne (h.symm)
      have h2 : ¬ a.1 = k2 := fun h => hne (by rw [← h, ha])
      rw [if_neg h1, if_neg h2, ih]
    · rw [if_neg ha]
      by_cases h2 : a.1 = k2
      · rw [if_pos h2, if_pos h2]
      · rw [if_neg h2, if_neg h2, ih]

/-- Helper: reading back the key just written yields the written value. -/
theorem olookup_oinsert_self {α : Type} (m : Obj α) (k : String) (v : α) :
    olookup (oinsert m k v) k = some v := by
  induction m with
  | nil =>
    rw [show oinsert ([] : Obj α) k v = [(k, v)] from rfl, olookup_cons]
    simp
  | cons a m ih =>
    by_cases ha : a.1 = k
    · rw [oinsert_cons_eq a m k v ha, olookup_cons]
      simp
    · rw [oinsert_cons_ne a m k v ha, olookup_cons, if_neg ha, ih]

/-- Helper: the running Eurozone total of one loop step. -/
theorem processGdpStep_snd (st : Obj ℚ × ℚ) (e : String × ℚ) :
    (processGdpStep st e).2 =
      if isEurozoneCountry e.1 then st.2 + e.2 * 1000000000 else st.2 := by
  cases h : mapCountryCodeToCurrency e.1 <;> simp [processGdpStep, h]

/-- Helper: after the loop, `totalEurozoneGdp` is the incoming total plus
the absolute GDP of the Eurozone member records. -/
theorem foldl_processGdpStep_snd (gdp : Obj ℚ) :
    ∀ m t, (gdp.foldl processGdpStep (m, t)).2 =
      t + 1000000000 * eurozoneMembersSum gdp := by
  induction gdp with
  | nil => intro m t; simp [eurozoneMembersSum]
  | cons e gdp ih =>
    intro m t
    rcases hse : processGdpStep (m, t) e with ⟨m2, t2⟩
    rw [List.foldl_cons, hse, ih m2 t2]
    have ht2 : t2 = if isEurozoneCountry e.1 then t + e.2 * 1000000000 else t := by
      have h := processGdpStep_snd (m, t) e
      rw [hse] at h
      exact h
    by_cases hm : isEurozoneCountry e.1
    · rw [ht2, if_pos hm]
      simp only [eurozoneMembersSum, List.filter_cons, hm, if_pos, List.map_cons,
        List.sum_cons]
      ring
    · rw [ht2, if_neg hm]
      simp only [eurozoneMembersSum, List.filter_cons, hm]
      simp

/-- Helper: writing key `EUR` into an object that is empty or holds only
an `EUR` entry yields the one-entry `EUR` object. -/
theorem oinsert_eur_shape (m : Obj ℚ) (w : ℚ)
    (hm : m = [] ∨ ∃ x, m = [("EUR", x)]) :
    oinsert m "EUR" w = [("EUR", w)] := by
  rcases hm with h | ⟨x, h⟩ <;> subst h <;> rfl

/-- Helper: when every record of the table maps to currency `EUR`, the
map built by the loop stays empty or a single `EUR` entry. -/
theorem foldl_processGdpStep_fst_euronly (gdp : Obj ℚ)
    (hmap : ∀ e ∈ gdp, mapCountryCodeToCurrency e.1 = some "EUR") :
    ∀ m t, (m = [] ∨ ∃ x, m = [("EUR", x)]) →
      ((gdp.foldl processGdpStep (m, t)).1 = [] ∨
        ∃ x, (gdp.foldl processGdpStep (m, t)).1 = [("EUR", x)]) := by
  induction gdp with
  | nil => intro m t hm; simpa using hm
  | cons e gdp ih =>
    intro m t hm
    have he := hmap e (List.mem_cons_self e gdp)
    have hstep : processGdpStep (m, t) e =
        (oinsert m "EUR" (e.2 * 1000000000),
          if isEurozoneCountry e.1 then t + e.2 * 1000000000 else t) := by
      simp [processGdpStep, he]
    rw [List.foldl_cons, hstep]
    refine ih (fun b hb => hmap b (List.mem_cons_of_mem e hb)) _ _ ?_
    exact Or.inr ⟨e.2 * 1000000000, oinsert_eur_shape m _ hm⟩

/-- Helper: when every record maps to `EUR`, the processed GDP map is
exactly the consolidated one-entry `EUR` object. -/
theorem processGdp_eur_only (gdp : Obj ℚ)
    (hmap : ∀ e ∈ gdp, mapCountryCodeToCurrency e.1 = some "EUR") :
    processGdp gdp = [("EUR", 1000000000 * eurozoneMembersSum gdp)] := by
  unfold processGdp
  rcases hst : gdp.foldl processGdpStep ([], 0) with ⟨m1, t1⟩
  have hshape := foldl_processGdpStep_fst_euronly gdp hmap [] 0 (Or.inl rfl)
  have htot := foldl_processGdpStep_snd gdp [] 0
  rw [hst] at hshape htot
  simp only at hshape htot
  rw [oinsert_eur_shape m1 t1 hshape, htot]
  norm_num

/-- Helper: every Eurozone member country code maps to currency `EUR`. -/
theorem member_maps_to_eur (c : String) (hc : isEurozoneCountry c = true) :
    mapCountryCodeToCurrency c = some "EUR" := by
  have hmem : c ∈ EUROZONE_COUNTRIES := by simpa [isEurozoneCountry] using hc
  fin_cases hmem <;> rfl

/-- Helper: every Euro-area aggregate code maps to currency `EUR` yet is
not a Eurozone member country code. -/
theorem aggregate_maps_to_eur (c : String)
    (hc : c = "EMU" ∨ c = "XS" ∨ c = "EA") :
    mapCountryCodeToCurrency c = some "EUR" ∧ isEurozoneCountry c = false := by
  rcases hc with h | h | h <;> subst h <;> exact ⟨rfl, rfl⟩

/-- Helper: `EUR` lower-cases to the CoinGecko price key `eur`. -/
theorem lowerStr_eur : lowerStr "EUR" = "eur" := by decide

/-- Helper: with the processed GDP map consolidated to a single `EUR`
entry, the fiat candidate loop produces exactly the one `EUR` row. -/
theorem fiatCurrencies_single_eur (bitcoin gdp : Obj ℚ) (peur s : ℚ)
    (heur : olookup bitcoin "eur" = some peur) (hne : peur ≠ 0)
    (hmap : processGdp gdp = [("EUR", s)]) :
    fiatCurrencies bitcoin gdp =
      [{ rank := 0, code := "EUR", name := "Euro", economicSize := s,
         satsPerUnit := 100000000 / peur, valueOfOneSat := peur / 100000000,
         type := CType.fiat }] := by
  unfold fiatCurrencies
  rw [hmap]
  show fiatStep bitcoin [("EUR", s)] [] "EUR" = _
  unfold fiatStep
  rw [if_neg (by decide), lowerStr_eur, heur]
  simp only [olookup_cons]
  rw [if_neg hne]
  simp only [olookup_cons, if_pos]
  rfl

/-- Helper: rank assignment does not change how many entities satisfy a
rank-independent predicate. -/
theorem assignRanks_countP (p : Currency → Bool)
    (hp : ∀ c n, p { c with rank := n } = p c) :
    ∀ n l, (assignRanks n l).countP p = l.countP p := by
  intro n l
  induction l generalizing n with
  | nil => rfl
  | cons c cs ih =>
    rw [assignRanks, List.countP_cons, List.countP_cons, hp c n, ih]

/-- Helper: every entity of the ranked output is an entity of the sorted
input with only the rank rewritten. -/
theorem assignRanks_mem (c : Currency) :
    ∀ n l, c ∈ assignRanks n l → ∃ c0 ∈ l, ∃ m2, c = { c0 with rank := m2 } := by
  intro n l
  induction l generalizing n with
  | nil => intro h; simp [assignRanks] at h
  | cons b bs ih =>
    intro h
    rw [assignRanks] at h
    rcases List.mem_cons.mp h with h1 | h1
    · exact ⟨b, List.mem_cons_self b bs, n, h1⟩
    · obtain ⟨c0, hc0, m2, hm2⟩ := ih (n + 1) h1
      exact ⟨c0, List.mem_cons_of_mem b hc0, m2, hm2⟩

/-- Helper: unranking commutes with rank assignment. -/
theorem map_unrank_assignRanks :
    ∀ n (l : List Currency), (assignRanks n l).map unrank = l.map unrank := by
  intro n l
  induction l generalizing n with
  | nil => rfl
  | cons c cs ih => rw [assignRanks, List.map_cons, List.map_cons, ih]; rfl

/-- Helper: a metal row carries its metal code and the metal tag. -/
theorem metalEntry_fields (code nm : String) (sup p : ℚ) (q : Option ℚ) :
    ∀ c ∈ metalEntry code nm sup p q, c.type = CType.metal ∧ c.code = code := by
  intro c hc
  cases q with
  | none => simp [metalEntry] at hc
  | some x =>
    by_cases hx : x = 0
    · simp [metalEntry, hx] at hc
    · simp [metalEntry, hx] at hc
      subst hc
      exact ⟨rfl, rfl⟩

/-- Helper: the metal rows are tagged metal with code `XAU` or `XAG`. -/
theorem metalEntries_fields (bitcoin : Obj ℚ) (p : ℚ) :
    ∀ c ∈ metalEntries bitcoin p,
      c.type = CType.metal ∧ (c.code = "XAU" ∨ c.code = "XAG") := by
  intro c hc
  rcases List.mem_append.mp hc with h | h
  · obtain ⟨ht, hcode⟩ := metalEntry_fields "XAU" "Gold" 215000 p _ c h
    exact ⟨ht, Or.inl hcode⟩
  · obtain ⟨ht, hcode⟩ := metalEntry_fields "XAG" "Silver" 1800000 p _ c h
    exact ⟨ht, Or.inr hcode⟩

/-- Helper: with the USD price present, `loadData` is rank assignment
over the sorted merge of the base rows and the truncated fiat rows. -/
theorem loadData_eq (bitcoin gdp : Obj ℚ) (p : ℚ)
    (husd : olookup bitcoin "usd" = some p) :
    loadData bitcoin gdp = assignRanks 1 (sortByEconomicSizeDesc
      (([btcEntry p] ++ metalEntries bitcoin p) ++
        (sortByEconomicSizeDesc (fiatCurrencies bitcoin gdp)).take
          TOP_CURRENCIES_LIMIT)) := by
  simp only [loadData, husd]
  rw [if_neg]
  simp [List.isEmpty_eq_true]

/-- Helper: the sort of the pipeline is a permutation of its input. -/
theorem sortByEconomicSizeDesc_perm (l : List Currency) :
    (sortByEconomicSizeDesc l).Perm l :=
  List.perm_insertionSort _ l

/-- Helper: the sort of the pipeline orders economic size descending. -/
theorem sortByEconomicSizeDesc_sorted (l : List Currency) :
    List.Sorted (fun a b => b.economicSize ≤ a.economicSize)
      (sortByEconomicSizeDesc l) :=
  List.sorted_insertionSort _ l

/-- Helper: with the GDP map consolidated to one `EUR` entry and the USD
and EUR prices quoted, the final output has exactly one `EUR` row, which
is also its only fiat row, and that row carries the consolidated GDP. -/
theorem loadData_single_eur (bitcoin gdp : Obj ℚ) (p peur s : ℚ)
    (husd : olookup bitcoin "usd" = some p)
    (heur : olookup bitcoin "eur" = some peur) (hne : peur ≠ 0)
    (hmap : processGdp gdp = [("EUR", s)]) :
    ((loadData bitcoin gdp).filter (fun c => decide (c.code = "EUR"))).length = 1 ∧
      ((loadData bitcoin gdp).filter (fun c => decide (c.type = CType.fiat))).length = 1 ∧
      ∀ c ∈ loadData bitcoin gdp, c.code = "EUR" → c.economicSize = s := by
  have hfc := fiatCurrencies_single_eur bitcoin gdp peur s heur hne hmap
  rw [loadData_eq bitcoin gdp p husd, hfc]
  have hcnt : ∀ p2 : Currency → Bool, (∀ c n, p2 { c with rank := n } = p2 c) →
      (assignRanks 1 (sortByEconomicSizeDesc
          (([btcEntry p] ++ metalEntries bitcoin p) ++
            (sortByEconomicSizeDesc
              [{ rank := 0, code := "EUR", name := "Euro", economicSize := s,
                 satsPerUnit := 100000000 / peur, valueOfOneSat := peur / 100000000,
                 type := CType.fiat }]).take TOP_CURRENCIES_LIMIT))).countP p2 =
        List.countP p2 [btcEntry p] + List.countP p2 (metalEntries bitcoin p) +
          List.countP p2
            [{ rank := 0, code := "EUR", name := "Euro", economicSize := s,
               satsPerUnit := 100000000 / peur, valueOfOneSat := peur / 100000000,
               type := CType.fiat }] := by
    intro p2 hp2
    rw [assignRanks_countP p2 hp2, (sortByEconomicSizeDesc_perm _).countP_eq,
      List.countP_append, List.countP_append]
    rfl
  have hmetal1 : List.countP (fun c => decide (c.code = "EUR"))
      (metalEntries bitcoin p) = 0 := by
    rw [List.countP_eq_zero]
    intro c hc
    obtain ⟨_, hcode⟩ := metalEntries_fields bitcoin p c hc
    rcases hcode with h | h <;> simp [h]
  have hmetal2 : List.countP (fun c => decide (c.type = CType.fiat))
      (metalEntries bitcoin p) = 0 := by
    rw [List.countP_eq_zero]
    intro c hc
    obtain ⟨htype, _⟩ := metalEntries_fields bitcoin p c hc
    simp [htype]
  refine ⟨?_, ?_, ?_⟩
  · rw [← List.countP_eq_length_filter,
      hcnt (fun c => decide (c.code = "EUR")) (fun _ _ => rfl), hmetal1]
    rfl
  · rw [← List.countP_eq_length_filter,
      hcnt (fun c => decide (c.type = CType.fiat)) (fun _ _ => rfl), hmetal2]
    rfl
  · intro c hc hcode
    obtain ⟨c0, hc0, m2, hceq⟩ := assignRanks_mem c 1 _ hc
    subst hceq
    have hcode0 : c0.code = "EUR" := hcode
    have hc0mem := (sortByEconomicSizeDesc_perm _).mem_iff.mp hc0
    rcases List.mem_append.mp hc0mem with h1 | h1
    · rcases List.mem_append.mp h1 with h2 | h2
      · rcases List.mem_singleton.mp h2 with h3
        subst h3
        simp [btcEntry] at hcode0
      · obtain ⟨_, hcode2⟩ := metalEntries_fields bitcoin p c0 h2
        rcases hcode2 with h3 | h3 <;> rw [h3] at hcode0 <;>
          exact absurd hcode0 (by decide)
    · rcases List.mem_singleton.mp h1 with h3
      subst h3
      rfl

/-- Claim C3: for a GDP table whose records are all Eurozone member
countries (each mapping to currency EUR), and a price feed quoting USD
and a nonzero EUR price, the aggregated output contains exactly one
`EUR` row — which is also its only fiat row, rather than one row per
member — and its economic size is the sum of the member GDP values
converted from billions to absolute USD. -/
theorem eurozone_gdp_consolidated (bitcoin gdp : Obj ℚ) (p peur : ℚ)
    (hmem : ∀ e ∈ gdp, isEurozoneCountry e.1 = true)
    (husd : olookup bitcoin "usd" = some p)
    (heur : olookup bitcoin "eur" = some peur) (hne : peur ≠ 0) :
    ((loadData bitcoin gdp).filter (fun c => decide (c.code = "EUR"))).length = 1 ∧
      ((loadData bitcoin gdp).filter (fun c => decide (c.type = CType.fiat))).length = 1 ∧
      ∀ c ∈ loadData bitcoin gdp, c.code = "EUR" →
        c.economicSize = 1000000000 * (gdp.map Prod.snd).sum := by
  have hmap : processGdp gdp = [("EUR", 1000000000 * (gdp.map Prod.snd).sum)] := by
    have h1 := processGdp_eur_only gdp
      (fun e he => member_maps_to_eur e.1 (hmem e he))
    have h2 : eurozoneMembersSum gdp = (gdp.map Prod.snd).sum := by
      unfold eurozoneMembersSum
      rw [List.filter_eq_self.mpr hmem]
    rw [h1, h2]
  exact loadData_single_eur bitcoin gdp p peur _ husd heur hne hmap

/-- Claim C3, witness: the worked example of the spec, members
`AUT: 10, BEL: 20, CYP: 5` billions, consolidates to one `EUR` row of
economic size `35e9` USD. -/
theorem eurozone_gdp_consolidated_witness :
    ((loadData bitcoinFix gdpEzFix).filter (fun c => decide (c.code = "EUR"))).length = 1 ∧
      ((loadData bitcoinFix gdpEzFix).filter
        (fun c => decide (c.type = CType.fiat))).length = 1 ∧
      ∀ c ∈ loadData bitcoinFix gdpEzFix, c.code = "EUR" →
        c.economicSize = 35000000000 := by
  have h := eurozone_gdp_consolidated bitcoinFix gdpEzFix 100000 90000
    (by decide) rfl rfl (by norm_num)
  refine ⟨h.1, h.2.1, fun c hc hcode => ?_⟩
  rw [h.2.2 c hc hcode]
  norm_num [gdpEzFix]

/-- Claim C10: after the mapping loop, the `EUR` entry of the processed
GDP map is unconditionally overwritten with the summed GDP of the
individual Eurozone member records (first conjunct, for every input
table). Consequently a Euro-area aggregate record (country code `EMU`,
`XS` or `EA`, each of which the lookup table maps to EUR) is discarded:
a table holding only such aggregate records yields exactly one `EUR`
output row whose economic size is 0 (second conjunct). -/
theorem eur_entry_overwritten :
    (∀ gdp : Obj ℚ, olookup (processGdp gdp) "EUR" =
        some (1000000000 * eurozoneMembersSum gdp)) ∧
      (∀ bitcoin gdp : Obj ℚ, ∀ p peur : ℚ,
        olookup bitcoin "usd" = some p →
        olookup bitcoin "eur" = some peur → peur ≠ 0 →
        (∀ e ∈ gdp, e.1 = "EMU" ∨ e.1 = "XS" ∨ e.1 = "EA") →
        ((loadData bitcoin gdp).filter
            (fun c => decide (c.code = "EUR"))).length = 1 ∧
          ∀ c ∈ loadData bitcoin gdp, c.code = "EUR" → c.economicSize = 0) := by
  constructor
  · intro gdp
    unfold processGdp
    rcases hst : gdp.foldl processGdpStep ([], 0) with ⟨m1, t1⟩
    have htot := foldl_processGdpStep_snd gdp [] 0
    rw [hst] at htot
    simp only at htot
    rw [olookup_oinsert_self, htot]
    norm_num
  · intro bitcoin gdp p peur husd heur hne hagg
    have hmap : processGdp gdp = [("EUR", 0)] := by
      have h1 := processGdp_eur_only gdp
        (fun e he => (aggregate_maps_to_eur e.1 (hagg e he)).1)
      have h2 : eurozoneMembersSum gdp = 0 := by
        unfold eurozoneMembersSum
        have : gdp.filter (fun e => isEurozoneCountry e.1) = [] := by
          rw [List.filter_eq_nil_iff]
          intro e he
          rw [(aggregate_maps_to_eur e.1 (hagg e he)).2]
          simp
        rw [this]
        rfl
      rw [h1, h2]
      norm_num
    have h := loadData_single_eur bitcoin gdp p peur 0 husd heur hne hmap
    exact ⟨h.1, h.2.2⟩

/-- Claim C10, witness: the first conjunct at the aggregate-only table
(the `EUR` entry of the processed map is 0, the aggregate 15000 billions
having been discarded), and the second conjunct for the full pipeline on
that table. -/
theorem eur_entry_overwritten_witness :
    olookup (processGdp gdpEmuFix) "EUR" =
        some (1000000000 * eurozoneMembersSum gdpEmuFix) ∧
      ((loadData bitcoinFix gdpEmuFix).filter
          (fun c => decide (c.code = "EUR"))).length = 1 ∧
      ∀ c ∈ loadData bitcoinFix gdpEmuFix, c.code = "EUR" → c.economicSize = 0 := by
  refine ⟨eur_entry_overwritten.1 gdpEmuFix, ?_, ?_⟩
  · exact (eur_entry_overwritten.2 bitcoinFix gdpEmuFix 100000 90000 rfl rfl
      (by norm_num) (by decide)).1
  · exact (eur_entry_overwritten.2 bitcoinFix gdpEmuFix 100000 90000 rfl rfl
      (by norm_num) (by decide)).2

/-- Helper: one fiat-loop step only appends fiat rows of rank 0. -/
theorem fiatStep_mem (bitcoin gdpMap : Obj ℚ) (acc : List Currency) (k : String) :
    ∀ c ∈ fiatStep bitcoin gdpMap acc k,
      c ∈ acc ∨ (c.type = CType.fiat ∧ c.rank = 0) := by
  intro c hc
  unfold fiatStep at hc
  split at hc
  · exact Or.inl hc
  · split at hc
    · exact Or.inl hc
    · split at hc
      · exact Or.inl hc
      · rcases List.mem_append.mp hc with h | h
        · exact Or.inl h
        · rcases List.mem_singleton.mp h with h2
          subst h2
          exact Or.inr ⟨rfl, rfl⟩

/-- Helper: every fiat candidate is tagged fiat and carries rank 0. -/
theorem fiatCurrencies_fields (bitcoin gdp : Obj ℚ) :
    ∀ c ∈ fiatCurrencies bitcoin gdp, c.type = CType.fiat ∧ c.rank = 0 := by
  unfold fiatCurrencies
  generalize (processGdp gdp) = gdpMap
  have hgen : ∀ (keys : List String) (acc : List Currency),
      (∀ c ∈ acc, c.type = CType.fiat ∧ c.rank = 0) →
      ∀ c ∈ keys.foldl (fiatStep bitcoin gdpMap) acc,
        c.type = CType.fiat ∧ c.rank = 0 := by
    intro keys
    induction keys with
    | nil => intro acc hacc c hc; exact hacc c hc
    | cons k ks ih =>
      intro acc hacc c hc
      rw [List.foldl_cons] at hc
      refine ih _ (fun c2 hc2 => ?_) c hc
      rcases fiatStep_mem bitcoin gdpMap acc k c2 hc2 with h | h
      · exact hacc c2 h
      · exact h
  exact hgen (gdpMap.map Prod.fst) [] (fun c hc => by simp at hc)

/-- Helper: an entity of rank 0 is unchanged by unranking. -/
theorem unrank_eq_self (c : Currency) (h : c.rank = 0) : unrank c = c := by
  cases c with
  | mk r co nm ec sp vs ty =>
    simp only [unrank]
    simp only at h
    subst h
    rfl

/-- Claim C4: the fiat candidates are sorted by economic size descending
and truncated to the top `TOP_CURRENCIES_LIMIT = 30` before the merge
with the crypto/metal rows and before the final sort. In the final
output: the number of fiat rows is `min 30 (number of candidates)`; the
fiat rows are, up to the rank field rewritten by the final ranking pass,
exactly the taken top segment of the sorted candidates (itself a
permutation of the candidate list); and every taken candidate has
economic size at least that of every dropped candidate. -/
theorem fiat_top30_truncation (bitcoin gdp : Obj ℚ) (p : ℚ)
    (husd : olookup bitcoin "usd" = some p) :
    ((loadData bitcoin gdp).filter (fun c => decide (c.type = CType.fiat))).length =
        min TOP_CURRENCIES_LIMIT (fiatCurrencies bitcoin gdp).length ∧
      (sortByEconomicSizeDesc (fiatCurrencies bitcoin gdp)).Perm
        (fiatCurrencies bitcoin gdp) ∧
      (((loadData bitcoin gdp).filter (fun c => decide (c.type = CType.fiat))).map
          unrank).Perm
        ((sortByEconomicSizeDesc (fiatCurrencies bitcoin gdp)).take
          TOP_CURRENCIES_LIMIT) ∧
      ∀ x ∈ (sortByEconomicSizeDesc (fiatCurrencies bitcoin gdp)).take
          TOP_CURRENCIES_LIMIT,
        ∀ y ∈ (sortByEconomicSizeDesc (fiatCurrencies bitcoin gdp)).drop
          TOP_CURRENCIES_LIMIT,
          y.economicSize ≤ x.economicSize := by
  have hF := fiatCurrencies_fields bitcoin gdp
  have htop : ∀ c ∈ (sortByEconomicSizeDesc (fiatCurrencies bitcoin gdp)).take
      TOP_CURRENCIES_LIMIT, c.type = CType.fiat ∧ c.rank = 0 := by
    intro c hc
    exact hF c ((sortByEconomicSizeDesc_perm _).mem_iff.mp (List.mem_of_mem_take hc))
  have hbtcP : (fun c => decide (c.type = CType.fiat)) (btcEntry p) = false := by
    simp [btcEntry]
  have hmetalF : List.countP (fun c => decide (c.type = CType.fiat))
      (metalEntries bitcoin p) = 0 := by
    rw [List.countP_eq_zero]
    intro c hc
    obtain ⟨htype, _⟩ := metalEntries_fields bitcoin p c hc
    simp [htype]
  refine ⟨?_, sortByEconomicSizeDesc_perm _, ?_, ?_⟩
  · rw [loadData_eq bitcoin gdp p husd, ← List.countP_eq_length_filter,
      assignRanks_countP (fun c => decide (c.type = CType.fiat)) (fun _ _ => rfl),
      (sortByEconomicSizeDesc_perm _).countP_eq,
      List.countP_append, List.countP_append]
    have h1 : List.countP (fun c => decide (c.type = CType.fiat)) [btcEntry p] = 0 := by
      simp [List.countP_cons, hbtcP]
    have h2 : List.countP (fun c => decide (c.type = CType.fiat))
        ((sortByEconomicSizeDesc (fiatCurrencies bitcoin gdp)).take
          TOP_CURRENCIES_LIMIT) =
        ((sortByEconomicSizeDesc (fiatCurrencies bitcoin gdp)).take
          TOP_CURRENCIES_LIMIT).length :=
      List.countP_eq_length.mpr (fun c hc => by simp [(htop c hc).1])
    rw [h1, hmetalF, h2, List.length_take,
      (sortByEconomicSizeDesc_perm (fiatCurrencies bitcoin gdp)).length_eq]
    simp
  · rw [loadData_eq bitcoin gdp p husd]
    have hcomp : ((fun c => decide (c.type = CType.fiat)) ∘ unrank) =
        (fun c => decide (c.type = CType.fiat)) := funext fun c => rfl
    have e1 : ∀ l : List Currency,
        (l.filter (fun c => decide (c.type = CType.fiat))).map unrank =
          (l.map unrank).filter (fun c => decide (c.type = CType.fiat)) := by
      intro l
      rw [List.filter_map, hcomp]
    rw [e1, map_unrank_assignRanks]
    have e3 := List.Perm.filter (fun c => decide (c.type = CType.fiat))
      ((sortByEconomicSizeDesc_perm (([btcEntry p] ++ metalEntries bitcoin p) ++
        (sortByEconomicSizeDesc (fiatCurrencies bitcoin gdp)).take
          TOP_CURRENCIES_LIMIT)).map unrank)
    have e4 : ((((([btcEntry p] ++ metalEntries bitcoin p) ++
        (sortByEconomicSizeDesc (fiatCurrencies bitcoin gdp)).take
          TOP_CURRENCIES_LIMIT)).map unrank).filter
            (fun c => decide (c.type = CType.fiat))) =
        (sortByEconomicSizeDesc (fiatCurrencies bitcoin gdp)).take
          TOP_CURRENCIES_LIMIT := by
      rw [← e1, List.filter_append, List.filter_append]
      have hb : List.filter (fun c => decide (c.type = CType.fiat)) [btcEntry p] = [] := by
        simp [List.filter_cons, hbtcP]
      have hm : List.filter (fun c => decide (c.type = CType.fiat))
          (metalEntries bitcoin p) = [] := by
        rw [List.filter_eq_nil_iff]
        intro c hc
        obtain ⟨htype, _⟩ := metalEntries_fields bitcoin p c hc
        simp [htype]
      have ht : List.filter (fun c => decide (c.type = CType.fiat))
          ((sortByEconomicSizeDesc (fiatCurrencies bitcoin gdp)).take
            TOP_CURRENCIES_LIMIT) =
          (sortByEconomicSizeDesc (fiatCurrencies bitcoin gdp)).take
            TOP_CURRENCIES_LIMIT := by
        rw [List.filter_eq_self]
        intro c hc
        simp [(htop c hc).1]
      rw [hb, hm, ht, List.map_append, List.map_append]
      have hmapid : ((sortByEconomicSizeDesc (fiatCurrencies bitcoin gdp)).take
          TOP_CURRENCIES_LIMIT).map unrank =
          (sortByEconomicSizeDesc (fiatCurrencies bitcoin gdp)).take
            TOP_CURRENCIES_LIMIT := by
        rw [List.map_congr_left (fun c hc => unrank_eq_self c (htop c hc).2)]
        simp
      simp [hmapid]
    rw [e4] at e3
    exact e3
  · intro x hx y hy
    exact (sortByEconomicSizeDesc_sorted
      (fiatCurrencies bitcoin gdp)).rel_of_mem_take_of_mem_drop hx hy

/-- Claim C4, witness: the truncation statement at the 39-candidate
fixture (39 countries, 39 quoted currencies), so the fiat rows of the
output number `min 30 39 = 30`. -/
theorem fiat_top30_truncation_witness :
    ((loadData bitcoinAllFix gdpAllFix).filter
        (fun c => decide (c.type = CType.fiat))).length =
      min TOP_CURRENCIES_LIMIT (fiatCurrencies bitcoinAllFix gdpAllFix).length ∧
    (sortByEconomicSizeDesc (fiatCurrencies bitcoinAllFix gdpAllFix)).Perm
      (fiatCurrencies bitcoinAllFix gdpAllFix) ∧
    (((loadData bitcoinAllFix gdpAllFix).filter
        (fun c => decide (c.type = CType.fiat))).map unrank).Perm
      ((sortByEconomicSizeDesc (fiatCurrencies bitcoinAllFix gdpAllFix)).take
        TOP_CURRENCIES_LIMIT) ∧
    ∀ x ∈ (sortByEconomicSizeDesc (fiatCurrencies bitcoinAllFix gdpAllFix)).take
        TOP_CURRENCIES_LIMIT,
      ∀ y ∈ (sortByEconomicSizeDesc (fiatCurrencies bitcoinAllFix gdpAllFix)).drop
        TOP_CURRENCIES_LIMIT,
        y.economicSize ≤ x.economicSize :=
  fiat_top30_truncation bitcoinAllFix gdpAllFix 100000 rfl
